import Mathlib

/-!
Verification of the dispatch core of `aiotgbotapi` (bot.py, bot_api_client.py,
errors.py, types.py) against its natural-language specification.

The embedding models:
* the extension context `EXTRA` of a sub-update as an association list
  (`Ctx`), with Python `dict` merge (`|=`) and item-assignment semantics;
* `Handler.__call__` (filter gating, context enrichment, body invocation),
  `Bot.__call_handler` (the per-handler try/except boundary) and
  `Bot.__call_handlers` (fan-out over the populated slot of an `Update`);
* the middleware composition of `Bot.__prepare_middlewares_handlers` /
  `Bot.__handle_update`;
* the registry operations `Bot.add_update_handler` /
  `Bot.remove_update_handler` with CPython set semantics (membership by
  hash and equality, where `Handler` defines `__hash__` from the callback
  but inherits identity `__eq__` from `object`);
* the `while` loop of `Bot.run_long_polling` as a fold over the successive
  results of `get_updates`.

Handler bodies and filters are user-supplied callables; they are modelled as
functions from the observed context to `Except PyErr _`, so that they may
raise. Coroutines are sequentialised: `asyncio.gather` schedules the handler
tasks in list order, and a task that never suspends runs to completion before
the next starts, so the sequential run is the schedule realised whenever the
callables do not suspend.
-/

namespace Aiotgbotapi

/-- Extension context (`EXTRA` dict of a sub-update): keys are strings,
values are modelled abstractly as naturals. -/
abbrev Ctx := List (String × Nat)

/-- A Python value as `Handler.__call__` inspects the filter result:
a bool, a dict (mapping), an int, or None. -/
inductive PyObj where
  | pybool (b : Bool)
  | pydict (d : List (String × Nat))
  | pyint (n : Int)
  | pynone
deriving DecidableEq, Repr

/-- Python truthiness `bool(x)` for the modelled values: an empty dict and
`0` are falsy. -/
def truthy : PyObj → Bool
  | .pybool b => b
  | .pydict d => !d.isEmpty
  | .pyint n => n != 0
  | .pynone => false

/-- Python `isinstance(x, dict)` for the modelled values. -/
def isDict : PyObj → Bool
  | .pydict _ => true
  | _ => false

/-- First-match lookup in an association list (Python `dict` access,
where well-formed dicts have unique keys). -/
def ctxGet (k : String) : Ctx → Option Nat
  | [] => none
  | p :: ps => if p.1 = k then some p.2 else ctxGet k ps

/-- Python in-place dict merge `a |= b`: existing keys of `a` keep their
position but take the value from `b` when present; keys of `b` absent from
`a` are appended in order. -/
def pyDictMerge (a b : Ctx) : Ctx :=
  (a.map fun p =>
    match ctxGet p.1 b with
    | some v => (p.1, v)
    | none => p)
  ++ b.filter fun q => (ctxGet q.1 a).isNone

/-- Python dict item assignment `c[k] = v`: overwrite in place when the key
is present, append otherwise. -/
def ctxSet (c : Ctx) (k : String) (v : Nat) : Ctx :=
  if (ctxGet k c).isSome then
    c.map fun p => if p.1 = k then (p.1, v) else p
  else
    c ++ [(k, v)]

/-- A Python exception value: `ValueError`, `RuntimeError` and arbitrary
user exceptions are `Exception` instances; `TelegramException` (errors.py)
subclasses `BaseException` directly, so an `except Exception:` clause does
not catch it. -/
inductive PyErr where
  | valueError (msg : String)
  | runtimeError (msg : String)
  | telegramException (code : Int) (msg : String)
  | userError (n : Nat)
deriving DecidableEq, Repr

/-- Python `isinstance(e, Exception)`: true for every modelled exception
except `TelegramException`, which derives from `BaseException` only. -/
def isExceptionInstance : PyErr → Bool
  | .telegramException _ _ => false
  | _ => true

/-- A filter callable (`Handler.filters`): receives the sub-update (here,
its extension context), may raise, otherwise returns a Python value. -/
def FilterFn := Ctx → Except PyErr PyObj

/-- A handler body (`Handler.function`): receives the sub-update (here, the
context it observes), may raise. -/
def BodyFn := Ctx → Except PyErr Unit

/-- The `Handler` object of bot.py: a registered callback with its update
type and optional filter. `oid` is the CPython object identity of the
`Handler` instance; `function` is the identity/hash of the wrapped callback
(`Handler.__hash__` returns `self.function.__hash__()`, and no `__eq__` is
defined, so equality between distinct `Handler` objects is object identity). -/
structure Handler where
  oid : Nat
  function : Nat
  update_type : String
  filters : Option FilterFn
  body : BodyFn

/-- Observable events of one dispatch: a handler body invoked with the
context it observes, `Bot.__call_handler` logging a caught exception, or an
exception escaping `Bot.__call_handler`'s `except Exception:` clause
unlogged (a `BaseException` instance), to be absorbed by the fan-out's
`gather(..., return_exceptions=True)`. -/
inductive Ev where
  | called (oid : Nat) (observed : Ctx)
  | logged (oid : Nat)
  | escaped (oid : Nat)
deriving DecidableEq, Repr

/-- The `Handler` object an event belongs to. -/
def evOid : Ev → Nat
  | .called o _ => o
  | .logged o => o
  | .escaped o => o

/-- Model of `Handler.__call__(client, update)`: if a filter is present it is
awaited first; a falsy result returns without calling the body; a truthy
dict result is merged in place into `update.EXTRA` before the body runs; any
other truthy result leaves the context unchanged. Returns the outcome
(normal or raised), the `EXTRA` context after the call (the merge mutates
the shared dict), and the body-invocation events. -/
def handlerDunderCall (h : Handler) (extra : Ctx) :
    Except PyErr Unit × Ctx × List Ev :=
  match h.filters with
  | none => (h.body extra, extra, [.called h.oid extra])
  | some f =>
    match f extra with
    | .error e => (.error e, extra, [])
    | .ok r =>
      if truthy r then
        match r with
        | .pydict d =>
          let extra' := pyDictMerge extra d
          (h.body extra', extra', [.called h.oid extra'])
        | _ => (h.body extra, extra, [.called h.oid extra])
      else (.ok (), extra, [])

/-- The event `Bot.__call_handler`'s boundary leaves for an exception `e`
raised out of `Handler.__call__`: the clause is `except Exception:`, so an
`Exception` instance is caught and logged, while a `BaseException`-only
instance (`TelegramException`) escapes the boundary unlogged. -/
def boundaryEv (e : PyErr) (o : Nat) : Ev :=
  if isExceptionInstance e then .logged o else .escaped o

/-- Model of `Bot.__call_handler`: the per-handler `except Exception:`
boundary. An `Exception` instance raised by `Handler.__call__` is caught
and logged; a `TelegramException` escapes into the handler's task, where
`gather(..., return_exceptions=True)` absorbs it without logging. Either
way the shared context reached before the raise is kept (the dict mutation
already happened) and the run continues. -/
def callHandler (h : Handler) (extra : Ctx) : Ctx × List Ev :=
  match handlerDunderCall h extra with
  | (.ok _, extra', ev) => (extra', ev)
  | (.error e, extra', ev) => (extra', ev ++ [boundaryEv e h.oid])

theorem evOid_called (o : Nat) (c : Ctx) : evOid (.called o c) = o := rfl

theorem evOid_logged (o : Nat) : evOid (.logged o) = o := rfl

theorem evOid_escaped (o : Nat) : evOid (.escaped o) = o := rfl

theorem evOid_boundaryEv (e : PyErr) (o : Nat) : evOid (boundaryEv e o) = o := by
  unfold boundaryEv
  cases he : isExceptionInstance e <;> simp [evOid]

/-- Sequential run of the handler tasks scheduled by `Bot.__call_handlers`
for one populated slot, threading the slot's shared `EXTRA` dict through the
calls (the schedule `asyncio.gather` realises when no callable suspends;
its `return_exceptions=True` keeps the gather from re-raising whatever
escaped a task). -/
def callHandlersSeq : List Handler → Ctx → Ctx × List Ev
  | [], extra => (extra, [])
  | h :: hs, extra =>
    let r := callHandler h extra
    let s := callHandlersSeq hs r.1
    (s.1, r.2 ++ s.2)

/- Lookup characterisation of the in-place dict merge. -/

theorem ctxGet_append (k : String) (xs ys : Ctx) :
    ctxGet k (xs ++ ys) = ((ctxGet k xs).orElse fun _ => ctxGet k ys) := by
  induction xs with
  | nil => simp [ctxGet, Option.orElse]
  | cons p ps ih =>
    by_cases hp : p.1 = k
    · simp [ctxGet, hp, Option.orElse]
    · simp [ctxGet, hp, ih]

theorem ctxGet_map_subst (b : Ctx) (a : Ctx) (k : String) :
    ctxGet k (a.map fun p =>
        match ctxGet p.1 b with
        | some v => (p.1, v)
        | none => p) =
      match ctxGet k a with
      | none => none
      | some v =>
        match ctxGet k b with
        | some w => some w
        | none => some v := by
  induction a with
  | nil => simp [ctxGet]
  | cons p ps ih =>
    by_cases hp : p.1 = k
    · subst hp
      cases hb : ctxGet p.1 b <;> simp [ctxGet, hb]
    · have h1 : (match ctxGet p.1 b with
          | some v => (p.1, v)
          | none => p).1 = p.1 := by
        cases ctxGet p.1 b <;> rfl
      simp only [List.map_cons, ctxGet, h1, if_neg hp]
      exact ih

theorem ctxGet_filter_not_in (a b : Ctx) (k : String) :
    ctxGet k (b.filter fun q => (ctxGet q.1 a).isNone) =
      if (ctxGet k a).isNone then ctxGet k b else none := by
  induction b with
  | nil => simp [ctxGet]
  | cons q qs ih =>
    by_cases hq : q.1 = k
    · subst hq
      cases ha : ctxGet q.1 a <;>
        simp [List.filter, ctxGet, ha, ih]
    · cases ha : ctxGet q.1 a <;>
        simp [List.filter, ctxGet, ha, hq, ih]

/-- Merging `d` into `extra` overwrites: a key present in `d` reads from
`d`, any other key reads from `extra`. -/
theorem ctxGet_pyDictMerge (extra d : Ctx) (k : String) :
    ctxGet k (pyDictMerge extra d) =
      ((ctxGet k d).orElse fun _ => ctxGet k extra) := by
  unfold pyDictMerge
  rw [ctxGet_append, ctxGet_map_subst, ctxGet_filter_not_in]
  cases ha : ctxGet k extra <;> cases hd : ctxGet k d <;>
    simp [Option.orElse, Option.isNone]

/-- C6: for every handler invocation, the Filter Evaluator has exactly the
four specified outcomes. (1) With no filter present the body always runs on
the unchanged context. (2) A falsy filter result skips the body and leaves
the context unchanged. (3) A truthy dict result is merged into the extension
context with the filter's keys overwriting existing ones, then the body runs
on the merged context. (4) Any other truthy result runs the body on the
unchanged context. -/
theorem c6_filter_evaluator (oidh fid : Nat) (ut : String) (b : BodyFn)
    (extra : Ctx) :
    (handlerDunderCall ⟨oidh, fid, ut, none, b⟩ extra =
      (b extra, extra, [.called oidh extra])) ∧
    (∀ f : FilterFn, ∀ r : PyObj, f extra = .ok r → truthy r = false →
      handlerDunderCall ⟨oidh, fid, ut, some f, b⟩ extra =
        (.ok (), extra, [])) ∧
    (∀ f : FilterFn, ∀ d : List (String × Nat),
      f extra = .ok (.pydict d) → truthy (.pydict d) = true →
      handlerDunderCall ⟨oidh, fid, ut, some f, b⟩ extra =
        (b (pyDictMerge extra d), pyDictMerge extra d,
          [.called oidh (pyDictMerge extra d)]) ∧
      (∀ k, ctxGet k (pyDictMerge extra d) =
        ((ctxGet k d).orElse fun _ => ctxGet k extra))) ∧
    (∀ f : FilterFn, ∀ r : PyObj, f extra = .ok r → truthy r = true →
      isDict r = false →
      handlerDunderCall ⟨oidh, fid, ut, some f, b⟩ extra =
        (b extra, extra, [.called oidh extra])) := by
  refine ⟨rfl, ?_, ?_, ?_⟩
  · intro f r hf hr
    simp [handlerDunderCall, hf, hr]
  · intro f d hf hd
    refine ⟨by simp [handlerDunderCall, hf, hd], ?_⟩
    intro k
    exact ctxGet_pyDictMerge extra d k
  · intro f r hf hr hnd
    cases r with
    | pybool bb => simp [handlerDunderCall, hf, hr]
    | pydict d => simp [isDict] at hnd
    | pyint n => simp [handlerDunderCall, hf, hr]
    | pynone => simp [truthy] at hr

/-- Witness for C6: concrete runs of all four outcomes. -/
theorem c6_witness :
    handlerDunderCall
        ⟨1, 1, "message", some fun _ => .ok (.pydict [("k", 1)]),
          fun _ => .ok ()⟩ [("a", 0), ("k", 9)] =
      (.ok (), [("a", 0), ("k", 1)], [.called 1 [("a", 0), ("k", 1)]]) ∧
    handlerDunderCall
        ⟨1, 1, "message", some fun _ => .ok (.pybool false),
          fun _ => .ok ()⟩ [("a", 0)] =
      (.ok (), [("a", 0)], []) := by
  constructor
  · have h := (c6_filter_evaluator 1 1 "message" (fun _ => .ok ())
      [("a", 0), ("k", 9)]).2.2.1
      (fun _ => .ok (.pydict [("k", 1)])) [("k", 1)] rfl (by decide)
    rw [h.1]
    rfl
  · exact (c6_filter_evaluator 1 1 "message" (fun _ => .ok ())
      [("a", 0)]).2.1 (fun _ => .ok (.pybool false)) (.pybool false) rfl
      (by decide)

/- Decomposition and invariance lemmas for the sequential fan-out run. -/

theorem callHandlersSeq_append (xs ys : List Handler) (extra : Ctx) :
    callHandlersSeq (xs ++ ys) extra =
      ((callHandlersSeq ys (callHandlersSeq xs extra).1).1,
        (callHandlersSeq xs extra).2 ++
          (callHandlersSeq ys (callHandlersSeq xs extra).1).2) := by
  induction xs generalizing extra with
  | nil => simp [callHandlersSeq]
  | cons h hs ih => simp [callHandlersSeq, ih]

theorem callHandlersSeq_cons (h : Handler) (hs : List Handler) (c : Ctx) :
    callHandlersSeq (h :: hs) c =
      ((callHandlersSeq hs (callHandler h c).1).1,
        (callHandler h c).2 ++ (callHandlersSeq hs (callHandler h c).1).2) :=
  rfl

/-- The shared context left behind by one handler's guarded call does not
depend on the handler body's outcome (the body cannot alter the filter's
merge, only return or raise). -/
theorem callHandler_fst_body_indep (oidh fid : Nat) (ut : String)
    (flt : Option FilterFn) (b₁ b₂ : BodyFn) (c : Ctx) :
    (callHandler ⟨oidh, fid, ut, flt, b₁⟩ c).1 =
      (callHandler ⟨oidh, fid, ut, flt, b₂⟩ c).1 := by
  cases flt with
  | none =>
    cases hb₁ : b₁ c <;> cases hb₂ : b₂ c <;>
      simp [callHandler, handlerDunderCall, hb₁, hb₂]
  | some f =>
    cases hf : f c with
    | error e => simp [callHandler, handlerDunderCall, hf]
    | ok r =>
      cases ht : truthy r with
      | false => simp [callHandler, handlerDunderCall, hf, ht]
      | true =>
        cases r with
        | pydict d =>
          cases hb₁ : b₁ (pyDictMerge c d) <;>
            cases hb₂ : b₂ (pyDictMerge c d) <;>
            simp [callHandler, handlerDunderCall, hf, ht, hb₁, hb₂]
        | pybool bb =>
          cases hb₁ : b₁ c <;> cases hb₂ : b₂ c <;>
            simp [callHandler, handlerDunderCall, hf, ht, hb₁, hb₂]
        | pyint n =>
          cases hb₁ : b₁ c <;> cases hb₂ : b₂ c <;>
            simp [callHandler, handlerDunderCall, hf, ht, hb₁, hb₂]
        | pynone =>
          cases hb₁ : b₁ c <;> cases hb₂ : b₂ c <;>
            simp [callHandler, handlerDunderCall, hf, ht, hb₁, hb₂]

/-- Every event a guarded handler call produces carries that handler's
object identity. -/
theorem evOid_callHandler (h : Handler) (c : Ctx) :
    ∀ e ∈ (callHandler h c).2, evOid e = h.oid := by
  rcases h with ⟨oidh, fid, ut, flt, b⟩
  cases flt with
  | none =>
    cases hb : b c <;>
      simp [callHandler, handlerDunderCall, hb, evOid_called,
        evOid_boundaryEv]
  | some f =>
    cases hf : f c with
    | error e =>
      simp [callHandler, handlerDunderCall, hf, evOid_boundaryEv]
    | ok r =>
      cases ht : truthy r with
      | false => simp [callHandler, handlerDunderCall, hf, ht]
      | true =>
        cases r with
        | pydict d =>
          cases hb : b (pyDictMerge c d) <;>
            simp [callHandler, handlerDunderCall, hf, ht, hb, evOid_called,
              evOid_boundaryEv]
        | pybool bb =>
          cases hb : b c <;>
            simp [callHandler, handlerDunderCall, hf, ht, hb, evOid_called,
              evOid_boundaryEv]
        | pyint n =>
          cases hb : b c <;>
            simp [callHandler, handlerDunderCall, hf, ht, hb, evOid_called,
              evOid_boundaryEv]
        | pynone =>
          cases hb : b c <;>
            simp [callHandler, handlerDunderCall, hf, ht, hb, evOid_called,
              evOid_boundaryEv]

theorem filter_not_own_oid (h : Handler) (c : Ctx) :
    ((callHandler h c).2.filter fun e => !(evOid e == h.oid)) = [] := by
  apply List.filter_eq_nil_iff.mpr
  intro e he
  have := evOid_callHandler h c e he
  simp [this]

/- C4: shared extension context across sibling handlers. -/

/-- Sibling handler A for the C4 run: its filter writes `k = 1` into the
sub-update's extension context. -/
def c4HandlerA : Handler :=
  ⟨1, 1, "message", some fun _ => Except.ok (.pydict [("k", 1)]),
    fun _ => Except.ok ()⟩

/-- Sibling handler B for the C4 run: no filter, so its own post-filter
context is the untouched `EXTRA`. -/
def c4HandlerB : Handler := ⟨2, 2, "message", none, fun _ => Except.ok ()⟩

/-- C4 counterexample: in the fan-out over the shared sub-update, handler B
(no filter, so its own post-filter context is the incoming `EXTRA`, here
empty) observes `k = 1`, the data written by sibling A's filter: the merge
mutates the one `EXTRA` dict both handlers share, so filter-written context
does leak to a sibling's invocation. -/
theorem c4_counterexample :
    (callHandlersSeq [c4HandlerA, c4HandlerB] []).2 =
      [.called 1 [("k", 1)], .called 2 [("k", 1)]] ∧
    (callHandlersSeq [c4HandlerB] []).2 = [.called 2 []] ∧
    ([("k", 1)] : Ctx) ≠ [] ∧ ctxGet "k" [("k", 1)] = some 1 := by
  refine ⟨rfl, rfl, by decide, rfl⟩

/-- C4 amended: the extension context is one shared mapping per sub-update;
a handler whose filter returns a (non-empty) dict merges it into that shared
mapping, and every sibling scheduled after it runs with the merged context —
the filter-written data is observable by later siblings, not isolated. -/
theorem c4_shared_context_leak (oidh fid : Nat) (ut : String)
    (d : List (String × Nat)) (hs : List Handler) (extra : Ctx)
    (hne : d.isEmpty = false) :
    callHandlersSeq
        (⟨oidh, fid, ut, some fun _ => Except.ok (.pydict d),
          fun _ => Except.ok ()⟩ :: hs) extra =
      ((callHandlersSeq hs (pyDictMerge extra d)).1,
        .called oidh (pyDictMerge extra d) ::
          (callHandlersSeq hs (pyDictMerge extra d)).2) := by
  simp [callHandlersSeq_cons, callHandler, handlerDunderCall, truthy, hne]

/-- Witness for C4's amended statement at a concrete run: sibling 2 runs
with the context merged by sibling 1's filter. -/
theorem c4_witness :
    callHandlersSeq
        [⟨1, 1, "message", some fun _ => Except.ok (.pydict [("k", 1)]),
          fun _ => Except.ok ()⟩, c4HandlerB] [] =
      ([("k", 1)], [.called 1 [("k", 1)], .called 2 [("k", 1)]]) := by
  have h := c4_shared_context_leak 1 1 "message" [("k", 1)] [c4HandlerB] []
    rfl
  rw [h]
  rfl

/- The Update record of types.py and the fan-out of Bot.__call_handlers. -/

/-- A sub-update (the active payload of an `Update`): modelled by its
mutable extension context `EXTRA` (types.py `_BaseModel.EXTRA`); the
payload's own fields play no role in dispatch. -/
structure SubUpd where
  extra : Ctx
deriving DecidableEq, Repr

/-- The `Update` record of types.py: a monotone identifier and thirteen
mutually exclusive optional sub-payload slots. -/
structure UpdateRec where
  update_id : Int
  message : Option SubUpd
  edited_message : Option SubUpd
  channel_post : Option SubUpd
  edited_channel_post : Option SubUpd
  inline_query : Option SubUpd
  chosen_inline_result : Option SubUpd
  callback_query : Option SubUpd
  shipping_query : Option SubUpd
  pre_checkout_query : Option SubUpd
  poll : Option SubUpd
  poll_answer : Option SubUpd
  my_chat_member : Option SubUpd
  chat_member : Option SubUpd
deriving DecidableEq, Repr

/-- The key order of `Bot.__updates_handlers` (the dict literal in bot.py),
which is also the iteration order of `Bot.__call_handlers`. -/
def updateTypes : List String :=
  ["message", "edited_message", "channel_post", "edited_channel_post",
    "inline_query", "chosen_inline_result", "callback_query",
    "shipping_query", "pre_checkout_query", "poll", "poll_answer",
    "my_chat_member", "chat_member"]

/-- Python `getattr(update, update_type, None)`. -/
def getSlot (u : UpdateRec) : String → Option SubUpd
  | "message" => u.message
  | "edited_message" => u.edited_message
  | "channel_post" => u.channel_post
  | "edited_channel_post" => u.edited_channel_post
  | "inline_query" => u.inline_query
  | "chosen_inline_result" => u.chosen_inline_result
  | "callback_query" => u.callback_query
  | "shipping_query" => u.shipping_query
  | "pre_checkout_query" => u.pre_checkout_query
  | "poll" => u.poll
  | "poll_answer" => u.poll_answer
  | "my_chat_member" => u.my_chat_member
  | "chat_member" => u.chat_member
  | _ => none

/-- The registry `Bot.__updates_handlers`: an insertion-ordered dict from
update kind to the (set of) registered handlers. -/
abbrev Registry := List (String × List Handler)

/-- Dict lookup on the registry (`reg.get(k)` / `reg[k]`). -/
def regGet : Registry → String → Option (List Handler)
  | [], _ => none
  | p :: ps, k => if p.1 = k then some p.2 else regGet ps k

/-- Dict assignment on an existing key of the registry. -/
def regSet : Registry → String → List Handler → Registry
  | [], _, _ => []
  | p :: ps, k, v => if p.1 = k then (k, v) :: ps else p :: regSet ps k v

/-- The kinds whose slot is populated in `u` (`bool(update_field)` is true
exactly for a present pydantic sub-model). -/
def populatedKinds (u : UpdateRec) : List String :=
  updateTypes.filter fun k => (getSlot u k).isSome

/-- Model of `Bot.__call_handlers(update)`: scan the registry's kinds in
dict order; for each populated slot, set `EXTRA["bot"]` on the sub-update
and schedule the guarded calls of every handler registered for that kind
(here run sequentially per kind, the schedule `asyncio.gather` realises for
non-suspending callables; distinct kinds own distinct sub-update objects and
so distinct `EXTRA` dicts). -/
def gatherKinds (reg : Registry) (u : UpdateRec) :
    List (String × (Ctx × List Ev)) :=
  updateTypes.filterMap fun k =>
    match getSlot u k with
    | none => none
    | some s =>
      some (k, callHandlersSeq ((regGet reg k).getD [])
        (ctxSet s.extra "bot" 0))

/-- Model of `Bot.__handle_updates(updates)` with no middleware registered:
one unit of work per update of the batch, in batch order
(`Bot.__handle_update` calls `Bot.__call_handlers` directly when the
prepared middleware list is empty). -/
def handleUpdates (reg : Registry) (batch : List UpdateRec) :
    List (List (String × (Ctx × List Ev))) :=
  batch.map fun u => gatherKinds reg u

/-- The handler identity of a body-invocation event, if it is one. -/
def calledOid : Ev → Option Nat
  | .called o _ => some o
  | .logged _ => none
  | .escaped _ => none

theorem calledOid_called (o : Nat) (c : Ctx) :
    calledOid (.called o c) = some o := rfl

theorem calledOid_boundaryEv (e : PyErr) (o : Nat) :
    calledOid (boundaryEv e o) = none := by
  unfold boundaryEv
  cases he : isExceptionInstance e <;> simp [calledOid]

theorem filterMap_slot_nil (q : String → Option SubUpd)
    (g : String → SubUpd → String × (Ctx × List Ev)) :
    ∀ ks : List String, (∀ a ∈ ks, q a = none) →
      (ks.filterMap fun k =>
        match q k with
        | none => none
        | some s => some (g k s)) = [] := by
  intro ks
  induction ks with
  | nil => intro _; rfl
  | cons k ks ih =>
    intro h
    have hq : q k = none := h k (List.mem_cons_self k ks)
    simp only [List.filterMap_cons, hq]
    exact ih fun a ha => h a (List.mem_cons_of_mem _ ha)

theorem filterMap_slot_singleton (q : String → Option SubUpd)
    (g : String → SubUpd → String × (Ctx × List Ev)) (k₀ : String)
    (s₀ : SubUpd) (hq₀ : q k₀ = some s₀) :
    ∀ ks : List String, ks.filter (fun k => (q k).isSome) = [k₀] →
      (ks.filterMap fun k =>
        match q k with
        | none => none
        | some s => some (g k s)) = [g k₀ s₀] := by
  intro ks
  induction ks with
  | nil => intro h; simp at h
  | cons k ks ih =>
    intro h
    cases hq : q k with
    | none =>
      rw [List.filter_cons] at h
      simp only [hq, Option.isSome_none, Bool.false_eq_true, if_false] at h
      simp only [List.filterMap_cons, hq]
      exact ih h
    | some s =>
      rw [List.filter_cons] at h
      simp [hq] at h
      rcases h with ⟨hk, hrest⟩
      subst hk
      have hs : s = s₀ := by
        rw [hq₀] at hq
        exact (Option.some.inj hq).symm
      subst hs
      simp only [List.filterMap_cons, hq]
      rw [filterMap_slot_nil q g ks hrest]

/-- A guarded handler call produces at most one body-invocation event, and
it carries that handler's identity. -/
theorem calledOids_callHandler (h : Handler) (c : Ctx) :
    ((callHandler h c).2.filterMap calledOid) = [] ∨
      ((callHandler h c).2.filterMap calledOid) = [h.oid] := by
  rcases h with ⟨oidh, fid, ut, flt, b⟩
  cases flt with
  | none =>
    cases hb : b c <;>
      simp [callHandler, handlerDunderCall, hb, calledOid_called,
        calledOid_boundaryEv]
  | some f =>
    cases hf : f c with
    | error e =>
      simp [callHandler, handlerDunderCall, hf, calledOid_boundaryEv]
    | ok r =>
      cases ht : truthy r with
      | false => simp [callHandler, handlerDunderCall, hf, ht]
      | true =>
        cases r with
        | pydict d =>
          cases hb : b (pyDictMerge c d) <;>
            simp [callHandler, handlerDunderCall, hf, ht, hb,
              calledOid_called, calledOid_boundaryEv]
        | pybool bb =>
          cases hb : b c <;>
            simp [callHandler, handlerDunderCall, hf, ht, hb,
              calledOid_called, calledOid_boundaryEv]
        | pyint n =>
          cases hb : b c <;>
            simp [callHandler, handlerDunderCall, hf, ht, hb,
              calledOid_called, calledOid_boundaryEv]
        | pynone =>
          cases hb : b c <;>
            simp [callHandler, handlerDunderCall, hf, ht, hb,
              calledOid_called, calledOid_boundaryEv]

/-- The identities of the bodies invoked by a sequential fan-out run form a
sublist of the scheduled handlers' identities: each handler's body runs at
most once. -/
theorem calledOids_sublist (hs : List Handler) (extra : Ctx) :
    ((callHandlersSeq hs extra).2.filterMap calledOid).Sublist
      (hs.map Handler.oid) := by
  induction hs generalizing extra with
  | nil => simp [callHandlersSeq]
  | cons h hs ih =>
    rw [callHandlersSeq_cons]
    simp only [List.filterMap_append, List.map_cons]
    rcases calledOids_callHandler h extra with hc | hc
    · rw [hc]
      exact (ih _).cons _
    · rw [hc]
      exact (ih _).cons₂ _

/-- C9: for an update with exactly one populated sub-update slot, the
fan-out processes exactly the handlers registered for that slot's kind —
the guarded call of each registered handler for that kind, in a single
per-kind run on the slot's context (after `EXTRA["bot"]` is set), and no
handler of any other kind; moreover each scheduled handler's body is
invoked at most once (invoked identities are a sublist of the registered
identities, and the filter decides inside each guarded call). -/
theorem c9_fanout_exact_kind (reg : Registry) (u : UpdateRec) (k : String)
    (s : SubUpd) (hone : populatedKinds u = [k])
    (hs : getSlot u k = some s) :
    gatherKinds reg u =
      [(k, callHandlersSeq ((regGet reg k).getD [])
        (ctxSet s.extra "bot" 0))] ∧
    ((callHandlersSeq ((regGet reg k).getD [])
        (ctxSet s.extra "bot" 0)).2.filterMap calledOid).Sublist
      (((regGet reg k).getD []).map Handler.oid) := by
  constructor
  · exact filterMap_slot_singleton (getSlot u)
      (fun k' s' => (k', callHandlersSeq ((regGet reg k').getD [])
        (ctxSet s'.extra "bot" 0))) k s hs updateTypes hone
  · exact calledOids_sublist _ _

/-- The empty update used by concrete runs: no slot populated. -/
def emptyUpdate : UpdateRec :=
  ⟨0, none, none, none, none, none, none, none, none, none, none, none,
    none, none⟩

/-- A concrete update whose only populated slot is `message`. -/
def c9Update : UpdateRec := { emptyUpdate with message := some ⟨[]⟩ }

/-- A concrete registry: one handler for `message`, one for
`callback_query`. -/
def c9Registry : Registry :=
  regSet (regSet (updateTypes.map fun k => (k, []))
      "message" [⟨1, 1, "message", none, fun _ => Except.ok ()⟩])
    "callback_query" [⟨2, 2, "callback_query", none, fun _ => Except.ok ()⟩]

/-- Witness for C9: on an update populated only at `message`, only the
message handler's body runs — the registered `callback_query` handler is
never invoked. -/
theorem c9_witness :
    gatherKinds c9Registry c9Update =
      [("message", ([("bot", 0)], [.called 1 [("bot", 0)]]))] := by
  have h := (c9_fanout_exact_kind c9Registry c9Update "message" ⟨[]⟩
    (by rfl) (by rfl)).1
  rw [h]
  rfl

/- C7 and C10: exception isolation at the per-handler boundary of
Bot.__call_handler. -/

/-- C7 counterexample: a handler body raising `TelegramException` — which
subclasses `BaseException`, not `Exception` — escapes the `except
Exception:` clause of `Bot.__call_handler` unlogged: the run produces no
log entry for handler 5, refuting that every exception raised by a handler
body is caught and logged at that single handler's boundary. -/
theorem c7_counterexample :
    callHandler ⟨5, 5, "message", none,
        fun _ => Except.error (.telegramException 400 "Bad Request")⟩ [] =
      ([], [.called 5 [], .escaped 5]) ∧
    Ev.logged 5 ∉ [Ev.called 5 [], Ev.escaped 5] := by
  exact ⟨rfl, by decide⟩

/-- C7 amended: an exception raised by a handler body that is an
`Exception` instance is caught at that single handler's boundary, logged
and swallowed; a `TelegramException` (subclassing `BaseException` only)
escapes the `except Exception:` boundary unlogged and is absorbed by the
fan-out's `gather(..., return_exceptions=True)`. In either case the
exception never prevents a sibling handler registered for the same update
from completing and never propagates out of the batch entry point.
Conjuncts: (a) the batch entry point processes each update of the batch
independently, so nothing raised inside one update's dispatch alters
another update's processing or escapes to the batch caller; (b) replacing
one handler's body by any other body — in particular by one that raises —
leaves the final shared context and the events of every sibling handler
unchanged; (c) an `Exception` instance raised out of `Handler.__call__` is
caught by `Bot.__call_handler` and turned into a log entry carrying that
handler's identity; (d) a non-`Exception` instance escapes that boundary
unlogged while the run still returns. -/
theorem c7_exception_boundary (reg : Registry)
    (us₁ us₂ : List UpdateRec) (u : UpdateRec) (pre post : List Handler)
    (oidh fid : Nat) (ut : String) (flt : Option FilterFn)
    (b₁ b₂ : BodyFn) (extra : Ctx) :
    (handleUpdates reg (us₁ ++ u :: us₂) =
      handleUpdates reg us₁ ++ [gatherKinds reg u] ++
        handleUpdates reg us₂) ∧
    ((callHandlersSeq (pre ++ ⟨oidh, fid, ut, flt, b₁⟩ :: post) extra).1 =
      (callHandlersSeq (pre ++ ⟨oidh, fid, ut, flt, b₂⟩ :: post) extra).1) ∧
    (((callHandlersSeq (pre ++ ⟨oidh, fid, ut, flt, b₁⟩ :: post)
          extra).2.filter fun e => !(evOid e == oidh)) =
      ((callHandlersSeq (pre ++ ⟨oidh, fid, ut, flt, b₂⟩ :: post)
          extra).2.filter fun e => !(evOid e == oidh))) ∧
    (∀ h : Handler, ∀ c : Ctx, ∀ e : PyErr,
      (handlerDunderCall h c).1 = .error e → isExceptionInstance e = true →
      callHandler h c =
        ((handlerDunderCall h c).2.1,
          (handlerDunderCall h c).2.2 ++ [.logged h.oid])) ∧
    (∀ h : Handler, ∀ c : Ctx, ∀ e : PyErr,
      (handlerDunderCall h c).1 = .error e → isExceptionInstance e = false →
      callHandler h c =
        ((handlerDunderCall h c).2.1,
          (handlerDunderCall h c).2.2 ++ [.escaped h.oid])) := by
  have hfst := callHandler_fst_body_indep oidh fid ut flt b₁ b₂
    (callHandlersSeq pre extra).1
  refine ⟨?_, ?_, ?_, ?_, ?_⟩
  · simp [handleUpdates]
  · rw [callHandlersSeq_append, callHandlersSeq_append,
      callHandlersSeq_cons, callHandlersSeq_cons, hfst]
  · rw [callHandlersSeq_append, callHandlersSeq_append,
      callHandlersSeq_cons, callHandlersSeq_cons, hfst]
    simp only [List.filter_append]
    have h₁ := filter_not_own_oid ⟨oidh, fid, ut, flt, b₁⟩
      (callHandlersSeq pre extra).1
    have h₂ := filter_not_own_oid ⟨oidh, fid, ut, flt, b₂⟩
      (callHandlersSeq pre extra).1
    rw [h₁, h₂]
  · intro h c e he hie
    unfold callHandler
    rcases hd : handlerDunderCall h c with ⟨res, c', ev⟩
    rw [hd] at he
    cases res with
    | ok _ => exact absurd he (by simp)
    | error e' =>
      have he' : e' = e := by simpa using he
      subst he'
      simp [boundaryEv, hie]
  · intro h c e he hie
    unfold callHandler
    rcases hd : handlerDunderCall h c with ⟨res, c', ev⟩
    rw [hd] at he
    cases res with
    | ok _ => exact absurd he (by simp)
    | error e' =>
      have he' : e' = e := by simpa using he
      subst he'
      simp [boundaryEv, hie]

/-- Witness for C7's amended statement: a handler body raising a plain
`Exception` instance is caught by `Bot.__call_handler` and logged; the run
returns normally. -/
theorem c7_witness :
    callHandler
        ⟨5, 5, "message", none, fun _ => Except.error (.userError 3)⟩ [] =
      ([], [.called 5 [], .logged 5]) := by
  have h := (c7_exception_boundary [] [] [] emptyUpdate [] [] 5 5
    "message" none (fun _ => Except.error (.userError 3))
    (fun _ => Except.ok ()) []).2.2.2.1
  have h2 := h ⟨5, 5, "message", none, fun _ => Except.error (.userError 3)⟩
    [] (.userError 3) rfl rfl
  exact h2.trans (by rfl)

/-- C10 counterexample: a filter raising `TelegramException` propagates out
of `Handler.__call__` but, subclassing `BaseException` rather than
`Exception`, is not caught and logged at the `except Exception:` boundary
of `Bot.__call_handler`: it escapes unlogged into the handler's task
(absorbed by the gather). The claim that a crashing filter is caught,
logged and swallowed at the same per-handler boundary as body exceptions
fails at this input — both siblings do still complete. -/
theorem c10_counterexample :
    callHandlersSeq
        [⟨7, 7, "message", none, fun _ => Except.ok ()⟩,
          ⟨8, 8, "message",
            some fun _ => Except.error (.telegramException 400 "Bad Request"),
            fun _ => Except.ok ()⟩,
          ⟨9, 9, "message", none, fun _ => Except.ok ()⟩] [] =
      ([], [.called 7 [], .escaped 8, .called 9 []]) ∧
    Ev.logged 8 ∉ [Ev.called 7 [], Ev.escaped 8, Ev.called 9 []] := by
  exact ⟨rfl, by decide⟩

/-- C10 amended: an exception raised by a handler's filter propagates out
of `Handler.__call__` (the filter is awaited inside it) to the
`Bot.__call_handler` boundary; an `Exception` instance is caught and
logged there exactly like a body exception, while a `TelegramException`
(`BaseException` only) escapes that boundary unlogged and is absorbed by
the fan-out's gather. In both cases the crashing filter skips only its own
handler's body: the run over `pre ++ [crashing] ++ post` equals the run
over `pre ++ post` except for the one boundary event carrying the crashing
handler's identity, so siblings and the shared context are unaffected and
nothing aborts the update's dispatch. -/
theorem c10_filter_crash_boundary (pre post : List Handler)
    (oidh fid : Nat) (ut : String) (f : FilterFn) (b : BodyFn)
    (extra : Ctx) (e : PyErr)
    (hf : f (callHandlersSeq pre extra).1 = .error e) :
    callHandlersSeq (pre ++ ⟨oidh, fid, ut, some f, b⟩ :: post) extra =
      ((callHandlersSeq post (callHandlersSeq pre extra).1).1,
        (callHandlersSeq pre extra).2 ++ [boundaryEv e oidh] ++
          (callHandlersSeq post (callHandlersSeq pre extra).1).2) ∧
    (isExceptionInstance e = true → boundaryEv e oidh = .logged oidh) ∧
    (isExceptionInstance e = false → boundaryEv e oidh = .escaped oidh) ∧
    callHandlersSeq (pre ++ post) extra =
      ((callHandlersSeq post (callHandlersSeq pre extra).1).1,
        (callHandlersSeq pre extra).2 ++
          (callHandlersSeq post (callHandlersSeq pre extra).1).2) := by
  have hcrash : callHandler ⟨oidh, fid, ut, some f, b⟩
      (callHandlersSeq pre extra).1 =
      ((callHandlersSeq pre extra).1, [boundaryEv e oidh]) := by
    simp [callHandler, handlerDunderCall, hf]
  refine ⟨?_, ?_, ?_, ?_⟩
  · rw [callHandlersSeq_append, callHandlersSeq_cons, hcrash]
    simp
  · intro hie
    simp [boundaryEv, hie]
  · intro hie
    simp [boundaryEv, hie]
  · rw [callHandlersSeq_append]

/-- Witness for C10's amended statement: a filter raising a plain
`Exception` instance between two good handlers — both siblings' bodies
run, the crash is logged, nothing propagates. -/
theorem c10_witness :
    callHandlersSeq
        [⟨7, 7, "message", none, fun _ => Except.ok ()⟩,
          ⟨8, 8, "message", some fun _ => Except.error (.userError 1),
            fun _ => Except.ok ()⟩,
          ⟨9, 9, "message", none, fun _ => Except.ok ()⟩] [] =
      ([], [.called 7 [], .logged 8, .called 9 []]) := by
  have h := (c10_filter_crash_boundary
    [⟨7, 7, "message", none, fun _ => Except.ok ()⟩]
    [⟨9, 9, "message", none, fun _ => Except.ok ()⟩] 8 8 "message"
    (fun _ => Except.error (.userError 1)) (fun _ => Except.ok ()) []
    (.userError 1) rfl).1
  exact h.trans (by rfl)

/- C5: middleware composition of Bot.__prepare_middlewares_handlers and
Bot.__handle_update. -/

/-- Events observed by an instrumented middleware run. -/
inductive MwEv where
  | enter (i : Nat)
  | leave (i : Nat)
  | handlerStep (t : Nat)
deriving DecidableEq, Repr

/-- A continuation (`call_next`): invoked to proceed the chain, yields the
trace of everything downstream. -/
def Cont := Unit → List MwEv

/-- A middleware callable `m(bot, update, call_next)` (bot and update play
no role in the composition), observed through its trace. -/
def Mw := Cont → List MwEv

/-- An instrumented middleware with identity `i`: record entry, invoke the
continuation, record return. -/
def instrument (i : Nat) : Mw := fun next => .enter i :: next () ++ [.leave i]

/-- Model of `Bot.__prepare_middlewares_handlers`: the prepared list is the
reversal of the registration-ordered middleware list. -/
def prepareMiddlewares (mws : List Mw) : List Mw := mws.reverse

/-- The composition loop of `Bot.__handle_update`: starting from the
terminal fan-out continuation, wrap it in each prepared middleware in
prepared order (`call_next = partial(m, call_next=call_next)`). -/
def composeChain (prepared : List Mw) (fanout : List MwEv) : Cont :=
  prepared.foldl (fun acc m => fun _ => m acc) fun _ => fanout

/-- Model of `Bot.__handle_update`: with no middleware registered, the
fan-out runs directly; otherwise the composed continuation is invoked. -/
def handleUpdateMw (mws : List Mw) (fanout : List MwEv) : List MwEv :=
  if mws.length = 0 then fanout
  else composeChain (prepareMiddlewares mws) fanout ()

theorem composeChain_append_one (prepared : List Mw) (m : Mw)
    (fanout : List MwEv) :
    composeChain (prepared ++ [m]) fanout () =
      m (composeChain prepared fanout) := by
  unfold composeChain
  rw [List.foldl_append]
  rfl

/-- Instrumented runs of the reversed-fold composition: registration order
is entry order, and exits happen in reverse. -/
theorem composeChain_instrument (ids : List Nat) (fanout : List MwEv) :
    composeChain (prepareMiddlewares (ids.map instrument)) fanout () =
      ids.map MwEv.enter ++ fanout ++ (ids.reverse.map MwEv.leave) := by
  induction ids with
  | nil => simp [composeChain, prepareMiddlewares]
  | cons i ids ih =>
    have hrev : prepareMiddlewares ((i :: ids).map instrument) =
        prepareMiddlewares (ids.map instrument) ++ [instrument i] := by
      simp [prepareMiddlewares]
    rw [hrev, composeChain_append_one]
    show MwEv.enter i ::
        composeChain (prepareMiddlewares (ids.map instrument)) fanout () ++
          [MwEv.leave i] = _
    rw [ih]
    simp

/-- C5: for middleware A registered before middleware B and a terminal
fan-out step H, the dispatch trace is A-enter, B-enter, H, B-exit, A-exit:
the first-registered middleware is outermost and the last-registered one
directly wraps the fan-out. -/
theorem c5_middleware_order (a b : Nat) (fanout : List MwEv) :
    handleUpdateMw [instrument a, instrument b] fanout =
      .enter a :: .enter b :: fanout ++ [.leave b, .leave a] := by
  have h := composeChain_instrument [a, b] fanout
  unfold handleUpdateMw
  simp only [List.length_cons, List.length_nil]
  rw [if_neg (by simp)]
  show composeChain (prepareMiddlewares ([a, b].map instrument)) fanout () = _
  rw [h]
  simp

/- C1 and C2: the while-loop of Bot.run_long_polling. -/

/-- Observable actions of the polling loop: a `get_updates` call with the
offset it sends, a hand-off of a batch to the dispatch entry point
(`Bot.__handle_updates`), and the inter-poll sleep. -/
inductive PollAct where
  | fetch (offset : Int)
  | dispatch (ids : List Int)
  | sleep
deriving DecidableEq, Repr

/-- Whether a polling action hands a batch to the dispatcher. -/
def isDispatch : PollAct → Bool
  | .dispatch _ => true
  | _ => false

/-- One iteration of the loop body of `Bot.run_long_polling`, given the
batch (as its list of `update_id`s, in received order) that the
`get_updates(offset = last + 1, ...)` call returns: emit the fetch, set
`last_received_update_id` to the batch's last identifier when the batch is
non-empty, sleep. The body contains no other statement — in particular no
call to `Bot.__handle_updates`. -/
def pollIter (last : Int) (batch : List Int) : Int × List PollAct :=
  (if batch.length > 0 then batch.getLastD last else last,
    [.fetch (last + 1), .sleep])

/-- The polling loop run against the successive results of `get_updates`
(the loop exits when the running flag is cleared; the list length is the
number of iterations observed). Returns the final
`last_received_update_id` and the trace of actions. -/
def pollRun : Int → List (List Int) → Int × List PollAct
  | last, [] => (last, [])
  | last, batch :: rest =>
    let step := pollIter last batch
    let next := pollRun step.1 rest
    (next.1, step.2 ++ next.2)

/-- Model of `Bot.run_long_polling`: the loop starts from the sentinel
`last_received_update_id = -1`. -/
def runLongPolling (batches : List (List Int)) : Int × List PollAct :=
  pollRun (-1) batches

/-- The offsets sent by the successive `get_updates` calls of a run. -/
def pollOffsets (batches : List (List Int)) : List Int :=
  (runLongPolling batches).2.filterMap fun a =>
    match a with
    | .fetch o => some o
    | _ => none

/-- C1 (code bug): the polling loop never hands any batch to the dispatcher
— no iteration of `Bot.run_long_polling` emits a dispatch action, whatever
`get_updates` returns; the batch is consumed only for its identifiers. The
closed conjunct evaluates the loop on a fetch returning one update with
identifier 5: the trace is fetch-then-sleep, with no hand-off, while
`last_received_update_id` advances to 5. -/
theorem c1_polling_never_dispatches :
    (∀ last : Int, ∀ batches : List (List Int),
      ((pollRun last batches).2.filter isDispatch) = []) ∧
    (runLongPolling [[5]]).2 = [.fetch 0, .sleep] ∧
    (runLongPolling [[5]]).1 = 5 := by
  refine ⟨?_, rfl, rfl⟩
  intro last batches
  induction batches generalizing last with
  | nil => rfl
  | cons batch rest ih =>
    show ((pollIter last batch).2 ++
      (pollRun (pollIter last batch).1 rest).2).filter isDispatch = []
    rw [List.filter_append, ih]
    rfl

/-- C2 counterexample: against the successive fetch results
`[5, 6]`, `[]`, `[7]`, the loop sends offsets `0, 7, 7` — not `0, 6, 6` as
claimed (the second call sends `last_id + 1 = 6 + 1`). -/
theorem c2_counterexample :
    pollOffsets [[5, 6], [], [7]] = [0, 7, 7] ∧
    pollOffsets [[5, 6], [], [7]] ≠ [0, 6, 6] := by
  constructor
  · rfl
  · decide

/-- C2 amended: from the initial sentinel, against fetch results
`[5, 6]`, `[]`, `[7]`, the three `get_updates` calls carry offsets
`0` (sentinel + 1), `7` (last id 6 + 1) and `7` (unchanged by the empty
batch), and after the third call `last_received_update_id = 7`. -/
theorem c2_polling_offsets :
    pollOffsets [[5, 6], [], [7]] = [0, 7, 7] ∧
    (runLongPolling [[5, 6], [], [7]]).1 = 7 := ⟨rfl, rfl⟩

/- C3 and C8: registry mutation (Bot.add_update_handler,
Bot.remove_update_handler) with CPython set semantics. -/

/-- CPython set membership for `Handler` objects: an element counts as
present when its hash matches (`Handler.__hash__` is the callback's hash)
and it compares equal — and since `Handler` defines no `__eq__`, equality
between `Handler` objects is object identity (`oid`). -/
def pysetMem (s : List Handler) (h : Handler) : Bool :=
  s.any fun x => x.function == h.function && x.oid == h.oid

/-- CPython `set.add`: a no-op when an equal element is present, insertion
otherwise. -/
def pysetAdd (s : List Handler) (h : Handler) : List Handler :=
  if pysetMem s h then s else s ++ [h]

/-- CPython `set.remove`: drop the equal element, or fail (`KeyError`) when
none is present. -/
def pysetRemove (s : List Handler) (h : Handler) : Option (List Handler) :=
  if pysetMem s h then
    some (s.filter fun x => !(x.function == h.function && x.oid == h.oid))
  else none

/-- The mutable state of a `Bot` instance that the registration API
touches: the running flag and the handler registry. -/
structure BotState where
  running : Bool
  handlers : Registry

/-- Assignment to `Bot.__updates_handlers` (replace the registry, keep the
running flag). -/
def withHandlers (bot : BotState) (reg : Registry) : BotState :=
  ⟨bot.running, reg⟩

/-- A fresh bot: not running, with the thirteen-kind registry of empty
handler sets. -/
def newBot : BotState := ⟨false, updateTypes.map fun k => (k, [])⟩

/-- Model of `Bot.add_update_handler(function, update_type, filters)`:
refuse when running (`RuntimeError`), refuse unknown update types
(`ValueError`), otherwise construct a fresh `Handler` object (fresh object
identity `nextOid`) and add it to the kind's set. -/
def addUpdateHandler (bot : BotState) (nextOid fn : Nat)
    (flt : Option FilterFn) (bdy : BodyFn) (ut : String) :
    Except PyErr (BotState × Nat × Handler) :=
  if bot.running then
    .error (.runtimeError
      "Unable to add middleware in already running bot instance!")
  else
    match regGet bot.handlers ut with
    | none => .error (.valueError "Unsupported update type!")
    | some s =>
      .ok (withHandlers bot
          (regSet bot.handlers ut (pysetAdd s ⟨nextOid, fn, ut, flt, bdy⟩)),
        nextOid + 1, ⟨nextOid, fn, ut, flt, bdy⟩)

/-- Model of `Bot.remove_update_handler(handler)`: look the handler's kind
up and remove it from that set; a `KeyError` (unknown kind or handler not in
the set) is caught and re-raised as `ValueError`. The method performs no
check of the running flag. -/
def removeUpdateHandler (bot : BotState) (h : Handler) :
    Except PyErr BotState :=
  match regGet bot.handlers h.update_type with
  | none => .error (.valueError "is not registered as handler")
  | some s =>
    match pysetRemove s h with
    | none => .error (.valueError "is not registered as handler")
    | some s' =>
      .ok (withHandlers bot (regSet bot.handlers h.update_type s'))

/-- Model of `Bot.start`: prepare the middleware chain and webhook, then set
the running flag (only the flag matters to the registration API). -/
def startBot (bot : BotState) : BotState := ⟨true, bot.handlers⟩

/-- Whether a registry/removal operation returned normally. -/
def exOk {α : Type} : Except PyErr α → Bool
  | .ok _ => true
  | .error _ => false

theorem regGet_regSet_self (reg : Registry) (k : String) (v : List Handler)
    (hk : (regGet reg k).isSome = true) :
    regGet (regSet reg k v) k = some v := by
  induction reg with
  | nil => exact Bool.noConfusion hk
  | cons p ps ih =>
    by_cases hp : p.1 = k
    · show regGet (if p.1 = k then (k, v) :: ps else p :: regSet ps k v)
        k = some v
      rw [if_pos hp]
      show (if k = k then some v else regGet ps k) = some v
      rw [if_pos rfl]
    · show regGet (if p.1 = k then (k, v) :: ps else p :: regSet ps k v)
        k = some v
      rw [if_neg hp]
      show (if p.1 = k then some p.2 else regGet (regSet ps k v) k) = some v
      rw [if_neg hp]
      have hk' : (regGet ps k).isSome = true := by
        have : regGet (p :: ps) k = regGet ps k := by
          show (if p.1 = k then some p.2 else regGet ps k) = regGet ps k
          rw [if_neg hp]
        rw [this] at hk
        exact hk
      exact ih hk'

/-- The concrete two-registration run for C3: the same callback (identity
7) registered twice for `message` on a fresh bot. -/
def c3Registered : List Handler :=
  match addUpdateHandler newBot 0 7 none (fun _ => Except.ok ()) "message"
    with
  | .error _ => []
  | .ok (bot₁, next₁, _) =>
    match addUpdateHandler bot₁ next₁ 7 none (fun _ => Except.ok ())
      "message" with
    | .error _ => []
    | .ok (bot₂, _, _) => (regGet bot₂.handlers "message").getD []

/-- C3 counterexample: registering the same callback function twice for the
same kind leaves two entries, not one — each `add_update_handler` call
constructs a fresh `Handler` object, and since `Handler` defines `__hash__`
(the callback's hash) but no `__eq__`, set deduplication falls back to
object identity and never collapses the two registrations. -/
theorem c3_counterexample :
    c3Registered.length = 2 ∧ c3Registered.length ≠ 1 := by
  refine ⟨rfl, by decide⟩

/-- C3 amended: registration is not idempotent in the callback function —
registering the same function twice for the same kind (as two
`add_update_handler` calls, each constructing a fresh `Handler` object)
yields two distinct registry entries for that function; only re-adding the
very same `Handler` object would collapse. -/
theorem c3_duplicate_registration (bot : BotState) (next fn : Nat)
    (flt₁ flt₂ : Option FilterFn) (b₁ b₂ : BodyFn) (ut : String)
    (s : List Handler) (hrun : bot.running = false)
    (hreg : regGet bot.handlers ut = some s)
    (hfresh : ∀ x ∈ s, x.oid < next) :
    ∃ bot₁ bot₂ : BotState,
      addUpdateHandler bot next fn flt₁ b₁ ut =
        .ok (bot₁, next + 1, ⟨next, fn, ut, flt₁, b₁⟩) ∧
      addUpdateHandler bot₁ (next + 1) fn flt₂ b₂ ut =
        .ok (bot₂, next + 2, ⟨next + 1, fn, ut, flt₂, b₂⟩) ∧
      regGet bot₂.handlers ut =
        some (s ++ [⟨next, fn, ut, flt₁, b₁⟩, ⟨next + 1, fn, ut, flt₂, b₂⟩]) ∧
      (s ++ [(⟨next, fn, ut, flt₁, b₁⟩ : Handler),
        (⟨next + 1, fn, ut, flt₂, b₂⟩ : Handler)]).length =
        s.length + 2 := by
  have hany₁ : pysetMem s ⟨next, fn, ut, flt₁, b₁⟩ = false := by
    apply List.any_eq_false.mpr
    intro x hx
    simp only [Bool.and_eq_true, beq_iff_eq, not_and]
    intro _
    exact Nat.ne_of_lt (hfresh x hx)
  have hsome : (regGet bot.handlers ut).isSome = true := by
    rw [hreg]; rfl
  have hget₁ : regGet (regSet bot.handlers ut
      (s ++ [⟨next, fn, ut, flt₁, b₁⟩])) ut =
      some (s ++ [⟨next, fn, ut, flt₁, b₁⟩]) :=
    regGet_regSet_self bot.handlers ut _ hsome
  have hany₂ : pysetMem (s ++ [⟨next, fn, ut, flt₁, b₁⟩])
      ⟨next + 1, fn, ut, flt₂, b₂⟩ = false := by
    apply List.any_eq_false.mpr
    intro x hx
    simp only [Bool.and_eq_true, beq_iff_eq, not_and]
    intro _
    rcases List.mem_append.mp hx with hx | hx
    · exact Nat.ne_of_lt (Nat.lt_succ_of_lt (hfresh x hx))
    · have : x = ⟨next, fn, ut, flt₁, b₁⟩ := List.mem_singleton.mp hx
      subst this
      exact Nat.ne_of_lt (Nat.lt_succ_self next)
  refine ⟨withHandlers bot (regSet bot.handlers ut
      (s ++ [⟨next, fn, ut, flt₁, b₁⟩])),
    withHandlers (withHandlers bot (regSet bot.handlers ut
      (s ++ [⟨next, fn, ut, flt₁, b₁⟩])))
      (regSet (regSet bot.handlers ut (s ++ [⟨next, fn, ut, flt₁, b₁⟩])) ut
        ((s ++ [⟨next, fn, ut, flt₁, b₁⟩]) ++
          [⟨next + 1, fn, ut, flt₂, b₂⟩])),
    ?_, ?_, ?_, ?_⟩
  · simp [addUpdateHandler, hrun, hreg, pysetAdd, hany₁]
  · simp [addUpdateHandler, withHandlers, hrun, hget₁, pysetAdd, hany₂]
  · have hsome₁ : (regGet (regSet bot.handlers ut
        (s ++ [⟨next, fn, ut, flt₁, b₁⟩])) ut).isSome = true := by
      rw [hget₁]; rfl
    have h2 := regGet_regSet_self (regSet bot.handlers ut
      (s ++ [⟨next, fn, ut, flt₁, b₁⟩])) ut
      ((s ++ [⟨next, fn, ut, flt₁, b₁⟩]) ++ [⟨next + 1, fn, ut, flt₂, b₂⟩])
      hsome₁
    show regGet (regSet (regSet bot.handlers ut
      (s ++ [⟨next, fn, ut, flt₁, b₁⟩])) ut
      ((s ++ [⟨next, fn, ut, flt₁, b₁⟩]) ++
        [⟨next + 1, fn, ut, flt₂, b₂⟩])) ut = _
    rw [h2]
    simp
  · simp

/-- Witness for C3's amended statement: two registrations of callback 7 on
a fresh bot produce the two-element set for `message`. -/
theorem c3_witness :
    ∃ bot₁ bot₂ : BotState,
      addUpdateHandler newBot 0 7 none (fun _ => Except.ok ()) "message" =
        .ok (bot₁, 1, ⟨0, 7, "message", none, fun _ => Except.ok ()⟩) ∧
      addUpdateHandler bot₁ 1 7 none (fun _ => Except.ok ()) "message" =
        .ok (bot₂, 2, ⟨1, 7, "message", none, fun _ => Except.ok ()⟩) ∧
      regGet bot₂.handlers "message" =
        some [⟨0, 7, "message", none, fun _ => Except.ok ()⟩,
          ⟨1, 7, "message", none, fun _ => Except.ok ()⟩] := by
  have h := c3_duplicate_registration newBot 0 7 none none
    (fun _ => Except.ok ()) (fun _ => Except.ok ()) "message" [] rfl rfl
    (fun x hx => absurd hx (List.not_mem_nil x))
  obtain ⟨bot₁, bot₂, h₁, h₂, h₃, _⟩ := h
  exact ⟨bot₁, bot₂, h₁, h₂, by simpa using h₃⟩

/-- The concrete C8 run: register one handler on a fresh bot, then start
the bot (lifecycle leaves the pre-start state). -/
def c8Setup : BotState × Handler :=
  match addUpdateHandler newBot 0 7 none (fun _ => Except.ok ()) "message"
    with
  | .ok (b, _, h) => (startBot b, h)
  | .error _ => (newBot, ⟨0, 7, "message", none, fun _ => Except.ok ()⟩)

/-- C8 counterexample: after `start` (running flag set), unregistering the
registered handler succeeds — `remove_update_handler` performs no lifecycle
check, so the claimed LifecycleError failure does not occur and
unregistration is not restricted to the NEW state. -/
theorem c8_counterexample :
    c8Setup.1.running = true ∧
    exOk (removeUpdateHandler c8Setup.1 c8Setup.2) = true := by
  exact ⟨rfl, rfl⟩

/-- C8 amended: `remove_update_handler` checks no lifecycle state — in any
state, including after `start`, it succeeds for a handler present in its
kind's set and removes exactly that handler's entry (the entry whose hash
and object identity match), and fails with ValueError (never a lifecycle
RuntimeError) when the handler is not present. -/
theorem c8_remove_no_lifecycle_check (bot : BotState) (h : Handler)
    (s : List Handler) (hreg : regGet bot.handlers h.update_type = some s) :
    (pysetMem s h = true →
      removeUpdateHandler bot h =
        .ok (withHandlers bot (regSet bot.handlers h.update_type
          (s.filter fun x =>
            !(x.function == h.function && x.oid == h.oid))))) ∧
    (pysetMem s h = false →
      removeUpdateHandler bot h =
        .error (.valueError "is not registered as handler")) := by
  constructor
  · intro hmem
    simp [removeUpdateHandler, hreg, pysetRemove, hmem]
  · intro hmem
    simp [removeUpdateHandler, hreg, pysetRemove, hmem]

/-- Witness for C8's amended statement: on the started bot, removing the
registered handler returns the registry to the empty `message` set. -/
theorem c8_witness :
    removeUpdateHandler c8Setup.1 c8Setup.2 =
      .ok (withHandlers c8Setup.1
        (regSet c8Setup.1.handlers "message" [])) := by
  have h := (c8_remove_no_lifecycle_check c8Setup.1 c8Setup.2
    [⟨0, 7, "message", none, fun _ => Except.ok ()⟩] rfl).1 rfl
  exact h.trans (by rfl)

end Aiotgbotapi
